import Mathlib

/-!
Verification development for the PromptLab repository.

The Python sources are shallowly embedded: Python floats are modelled as
rationals, Python dicts as association lists with in-place update
semantics, the Streamlit session as an explicit state record, and the
remote completion endpoint as an abstract function from the prompt text
to an `Except` outcome. Each embedded definition mirrors one source
function and keeps its name where Lean allows it.
-/

namespace PromptLab

/-! ## src/models/models.py -/

/-- Embeds the `ModelPricing` dataclass: price per 1000 input tokens and
price per 1000 output tokens, with Python floats modelled as rationals. -/
structure ModelPricing where
  input_price : ℚ
  output_price : ℚ
deriving DecidableEq

/-- Embeds `ModelPricing.calculate_cost`: `input_cost = (input_tokens / 1000)
* self.input_price`, `output_cost = (output_tokens / 1000) * self.output_price`,
returning `input_cost + output_cost`. -/
def ModelPricing.calculate_cost (p : ModelPricing)
    (input_tokens output_tokens : ℕ) : ℚ :=
  let input_cost := ((input_tokens : ℚ) / 1000) * p.input_price
  let output_cost := ((output_tokens : ℚ) / 1000) * p.output_price
  input_cost + output_cost

/-! ## src/core/config_manager.py

The backing JSON file is modelled by `FileContent`: it is absent, present
but unreadable (`open` raises `OSError`), present but malformed
(`json.load` raises `JSONDecodeError`), or a well-formed JSON object.
A JSON object is an association list from string keys to values of an
arbitrary type `α` (Python stores `Any`); keys are unique in a Python
dict, which `setKey` preserves by updating the first occurrence in place. -/

/-- The state of the file named by `ConfigManager.config_file`. -/
inductive FileContent (α : Type) where
  | absent : FileContent α
  | unreadable : FileContent α
  | malformed : FileContent α
  | good : List (String × α) → FileContent α
deriving DecidableEq

/-- Embeds the `ConfigManager` instance state together with the backing
file: `_cache` (Python `None` is `none`) and `_cache_dirty`. -/
structure CMState (α : Type) where
  file : FileContent α
  cache : Option (List (String × α))
  cacheDirty : Bool
deriving DecidableEq

/-- Embeds `ConfigManager.__init__`: `_cache = None`, `_cache_dirty = False`,
over a given backing file state. -/
def freshCM (file : FileContent α) : CMState α :=
  { file := file, cache := none, cacheDirty := false }

/-- Python `dict[k] = v` on an association list: replace the first binding
of `k` in place, else append at the end. -/
def setKey {κ : Type} [DecidableEq κ] (k : κ) (v : α) :
    List (κ × α) → List (κ × α)
  | [] => [(k, v)]
  | (k', v') :: rest =>
      if k' = k then (k, v) :: rest else (k', v') :: setKey k v rest

/-- Python `dict.get(k, d)` on an association list. -/
def lookupD {κ : Type} [BEq κ] (cfg : List (κ × α)) (k : κ) (d : α) : α :=
  (cfg.lookup k).getD d

/-- Python `dict.update(m)`: assign each binding of `m` in order. -/
def dictUpdate {κ : Type} [DecidableEq κ] (cfg : List (κ × α)) :
    List (κ × α) → List (κ × α)
  | [] => cfg
  | (k, v) :: rest => dictUpdate (setKey k v cfg) rest

/-- Embeds `ConfigManager._load_config`. Returns the cached document when
`_cache is not None and not _cache_dirty`; otherwise reads the file:
a missing file yields `{}` (cached), an `OSError` or `JSONDecodeError`
is caught and yields `{}` (cached, a warning is logged), and a good file
is cached with `_cache_dirty = False`. The function is total: the two
exception branches of the source are the `unreadable`/`malformed` cases. -/
def load_config (s : CMState α) : List (String × α) × CMState α :=
  match s.cache, s.cacheDirty with
  | some c, false => (c, s)
  | _, _ =>
      match s.file with
      | .absent => ([], { s with cache := some [] })
      | .unreadable => ([], { s with cache := some [] })
      | .malformed => ([], { s with cache := some [] })
      | .good cfg => (cfg, { s with cache := some cfg, cacheDirty := false })

/-- Embeds the successful path of `ConfigManager._save_config`: the document
is written to the file and cached (`_cache = config.copy()`,
`_cache_dirty = False`). The `OSError` branch of the source logs and
re-raises, so a failed save aborts `set`/`update` loudly; the claims about
`set`/`update` followed by reads concern the completed write modelled here. -/
def save_config (cfg : List (String × α)) (_s : CMState α) : CMState α :=
  { file := .good cfg, cache := some cfg, cacheDirty := false }

namespace ConfigManager

/-- Embeds `ConfigManager.get`: load, then `config.get(key, default)`.
Returns the value together with the state after the load. -/
def get (s : CMState α) (k : String) (d : α) : α × CMState α :=
  let (cfg, s') := load_config s
  (lookupD cfg k d, s')

/-- Embeds `ConfigManager.set`: load, assign the key, save. -/
def set (s : CMState α) (k : String) (v : α) : CMState α :=
  let (cfg, s') := load_config s
  save_config (setKey k v cfg) s'

/-- Embeds `ConfigManager.update`: load, `config.update(updates)`, save. -/
def update (s : CMState α) (m : List (String × α)) : CMState α :=
  let (cfg, s') := load_config s
  save_config (dictUpdate cfg m) s'

end ConfigManager

/-! ## src/services/azure_ai_service.py

`AzureAIService.generate_response` wraps one remote completion call; its
outcome for a given model name is abstracted as a function
`gen : String → Except String ModelResponse`, where `Except.error e`
stands for the exception (with message `e`) that the source re-raises, and
`Except.ok r` for the returned `ModelResponse`. -/

/-- Embeds the `TokenUsage` dataclass. -/
structure TokenUsage where
  prompt_tokens : ℕ
  completion_tokens : ℕ
  total_tokens : ℕ
deriving DecidableEq

/-- Embeds the `ModelResponse` dataclass (floats as rationals). -/
structure ModelResponse where
  content : String
  usage : TokenUsage
  model_name : String
  cost : Option ℚ := none
deriving DecidableEq

/-- Embeds the `for model_name in model_names` loop of
`generate_comparison_responses`: each model is tried in order; a success is
added to the `responses` dict, a caught exception's message to the `errors`
dict. Returns the pair `(responses, errors)` in insertion order. -/
def comparisonResults (gen : String → Except String ModelResponse) :
    List String → List (String × ModelResponse) × List (String × String)
  | [] => ([], [])
  | m :: rest =>
      let p := comparisonResults gen rest
      match gen m with
      | .ok r => ((m, r) :: p.1, p.2)
      | .error e => (p.1, (m, e) :: p.2)

/-- Python `"; ".join(items)`. -/
def joinSep (sep : String) : List String → String
  | [] => ""
  | [x] => x
  | x :: y :: xs => x ++ sep ++ joinSep sep (y :: xs)

/-- The `RuntimeError` message built when every model failed:
`"All models failed to generate responses: "` followed by
`"; ".join(model + ": " + error for each failure)`. -/
def allFailedMessage (errors : List (String × String)) : String :=
  "All models failed to generate responses: " ++
    joinSep "; " (errors.map fun p => p.1 ++ ": " ++ p.2)

/-- Embeds `AzureAIService.generate_comparison_responses`: run the loop;
`if errors and not responses` raise the aggregate `RuntimeError`, otherwise
(logging partial failures) return the successful responses. -/
def generate_comparison_responses (gen : String → Except String ModelResponse)
    (model_names : List String) : Except String (List (String × ModelResponse)) :=
  let p := comparisonResults gen model_names
  if p.2 ≠ [] ∧ p.1 = [] then .error (allFailedMessage p.2)
  else .ok p.1

/-- The responses of exactly the models whose call succeeded, in order. -/
def successResponses (gen : String → Except String ModelResponse)
    (names : List String) : List (String × ModelResponse) :=
  names.filterMap fun m =>
    match gen m with
    | .ok r => some (m, r)
    | .error _ => none

/-- The recorded errors of exactly the models whose call failed, in order. -/
def failureErrors (gen : String → Except String ModelResponse)
    (names : List String) : List (String × String) :=
  names.filterMap fun m =>
    match gen m with
    | .ok _ => none
    | .error e => some (m, e)

/-- `msg` contains `s` verbatim as a contiguous substring. -/
def mentions (msg s : String) : Prop :=
  ∃ a b : List Char, msg.data = a ++ s.data ++ b

/-- Concrete response used by witnesses. -/
def respB : ModelResponse :=
  { content := "fine", usage := ⟨1, 1, 2⟩, model_name := "B", cost := none }

/-- Concrete outcome function used by witnesses: model "B" succeeds,
every other model fails with message "boom". -/
def genAB : String → Except String ModelResponse := fun m =>
  if m = "B" then .ok respB else .error "boom"

/-- Concrete outcome function used by witnesses: every model fails. -/
def genFail : String → Except String ModelResponse := fun _ =>
  .error "boom"

/-! ## src/views/chain_view.py

The Streamlit session state entry `chain_state` is the record `ChainState`;
the completion call made by a button handler is abstracted, as in the
service embedding, by a function `call` from the user-prompt text it is
given to its `Except` outcome. Each button press is one transition, gated
by the button's `disabled` condition exactly as computed in
`show_chain_view`. -/

/-- Embeds `st.session_state.chain_state`: the current active stage
(1, 2 or 3), the dict from stage number to stored `ModelResponse`, and
the saved seed prompt. -/
structure ChainState where
  stage : ℕ
  responses : List (ℕ × ModelResponse)
  user_prompt : String
deriving DecidableEq

/-- The state first written into the session, and also the state the
`Reset Chain` button writes. -/
def initChainState : ChainState :=
  { stage := 1, responses := [], user_prompt := "" }

/-- Python `str.strip()` on the character list: drop whitespace at both
ends. -/
def stripChars (l : List Char) : List Char :=
  ((l.dropWhile Char.isWhitespace).reverse.dropWhile Char.isWhitespace).reverse

/-- The `Start Chain`/`Restart Chain` button is clickable:
`start_disabled = not user_prompt.strip()`. -/
def startEnabled (user_prompt : String) : Bool :=
  !(stripChars user_prompt.data).isEmpty

/-- The `Continue to Stage 2` button is clickable: not
(`stage2_disabled = not (current_stage >= 2 and 1 in responses)` or
`stage2_completed = 2 in responses`). -/
def stage2Enabled (s : ChainState) : Bool :=
  (decide (2 ≤ s.stage) && (s.responses.lookup 1).isSome)
    && !(s.responses.lookup 2).isSome

/-- The `Continue to Stage 3` button is clickable: not
(`stage3_disabled = not (current_stage >= 3 and 2 in responses)` or
`stage3_completed = 3 in responses`). -/
def stage3Enabled (s : ChainState) : Bool :=
  (decide (3 ≤ s.stage) && (s.responses.lookup 2).isSome)
    && !(s.responses.lookup 3).isSome

/-- Embeds `_start_chain`: call the service on the entered user prompt;
on success store the result under stage 1, set the pointer to 2 and save
the prompt; the `except` branch shows the error and leaves the session
state unchanged. -/
def startChain (user_prompt : String)
    (call : String → Except String ModelResponse) (s : ChainState) : ChainState :=
  match call user_prompt with
  | .ok r =>
      { stage := 2, responses := setKey 1 r s.responses,
        user_prompt := user_prompt }
  | .error _ => s

/-- The input the stage-`stage_num` completion call receives in
`_continue_chain`: for stage 3 with the include-original checkbox set it is
the saved seed prompt prepended to the previous output; otherwise it is the
previous stage's output text verbatim. -/
def continueInput (stage_num : ℕ) (includeOriginal : Bool) (s : ChainState)
    (prev : ModelResponse) : String :=
  if stage_num = 3 ∧ includeOriginal then
    "Original Request:\n" ++ s.user_prompt ++
      "\n\n---\n\nPrevious Stage Output:\n" ++ prev.content
  else prev.content

/-- Embeds `_continue_chain`: read the previous stage's stored response
(a missing entry raises `KeyError`, caught by the `except` branch, leaving
the state unchanged); call the service on `continueInput`; on success store
the result under `stage_num` and advance the pointer (`stage_num + 1`,
capped at 3); on exception leave the state unchanged. -/
def continueChain (stage_num : ℕ) (includeOriginal : Bool)
    (call : String → Except String ModelResponse) (s : ChainState) : ChainState :=
  match s.responses.lookup (stage_num - 1) with
  | none => s
  | some prev =>
      match call (continueInput stage_num includeOriginal s prev) with
      | .ok r =>
          { stage := if stage_num < 3 then stage_num + 1 else 3,
            responses := setKey stage_num r s.responses,
            user_prompt := s.user_prompt }
      | .error _ => s

/-- Embeds the stage-status computation of
`_render_stage_status_and_response`. -/
def stageStatus (s : ChainState) (stage_num : ℕ) : String :=
  if (s.responses.lookup stage_num).isSome then "✅ Completed"
  else if stage_num = s.stage
      ∧ (stage_num = 1 ∨ (s.responses.lookup (stage_num - 1)).isSome) then
    "⏳ Ready to run"
  else if stage_num < s.stage then "⚠️ Skipped"
  else "⏸️ Waiting"

/-- One button press on the chain controls, each gated exactly by its
button's enabled condition; the completion call's outcome is arbitrary. -/
inductive ChainStep : ChainState → ChainState → Prop where
  | start (prompt : String) (call : String → Except String ModelResponse)
      (s : ChainState) (h : startEnabled prompt = true) :
      ChainStep s (startChain prompt call s)
  | cont2 (inc : Bool) (call : String → Except String ModelResponse)
      (s : ChainState) (h : stage2Enabled s = true) :
      ChainStep s (continueChain 2 inc call s)
  | cont3 (inc : Bool) (call : String → Except String ModelResponse)
      (s : ChainState) (h : stage3Enabled s = true) :
      ChainStep s (continueChain 3 inc call s)
  | reset (s : ChainState) : ChainStep s initChainState

/-- Chain states reachable from the initial session state via gated button
presses. -/
inductive ChainReachable : ChainState → Prop where
  | init : ChainReachable initChainState
  | step {s s' : ChainState} :
      ChainReachable s → ChainStep s s' → ChainReachable s'

/-- Concrete reachable chain state used by witnesses: stage 1 completed
with response `respB` on seed prompt "x". -/
def chainS1 : ChainState :=
  startChain "x" (fun _ => Except.ok respB) initChainState

/-- Second concrete response used by witnesses and counterexamples. -/
def respC : ModelResponse :=
  { content := "different", usage := ⟨2, 3, 5⟩, model_name := "C", cost := none }

/-- Concrete reachable chain state used by witnesses: stages 1 and 2
completed. -/
def chainS2 : ChainState :=
  continueChain 2 false (fun _ => Except.ok respC) chainS1

/-- Concrete reachable chain state used by witnesses: all three stages
completed. -/
def chainS3 : ChainState :=
  continueChain 3 false (fun _ => Except.ok respB) chainS2

/-! ### Association-list lemmas -/

theorem lookup_setKey_self {κ : Type} [DecidableEq κ] [BEq κ] [LawfulBEq κ]
    (k : κ) (v : α) (l : List (κ × α)) :
    (setKey k v l).lookup k = some v := by
  induction l with
  | nil => simp [setKey, List.lookup]
  | cons p rest ih =>
      obtain ⟨k', v'⟩ := p
      by_cases h : k' = k
      · simp [setKey, h, List.lookup]
      · simp [setKey, h, List.lookup, beq_eq_false_iff_ne.mpr (Ne.symm h), ih]

theorem lookup_setKey_ne {κ : Type} [DecidableEq κ] [BEq κ] [LawfulBEq κ]
    (k k' : κ) (v : α) (l : List (κ × α))
    (h : k' ≠ k) : (setKey k v l).lookup k' = l.lookup k' := by
  have hne : (k' == k) = false := beq_eq_false_iff_ne.mpr h
  induction l with
  | nil => simp [setKey, List.lookup, hne]
  | cons p rest ih =>
      obtain ⟨k₀, v₀⟩ := p
      by_cases hk : k₀ = k
      · subst hk
        simp [setKey, List.lookup, hne]
      · simp only [setKey, if_neg hk]
        cases hb : (k' == k₀) <;> simp [List.lookup, hb, ih]

theorem lookup_dictUpdate_not_mem {κ : Type} [DecidableEq κ] [BEq κ]
    [LawfulBEq κ] (cfg : List (κ × α))
    (m : List (κ × α)) (k : κ) (h : k ∉ m.map Prod.fst) :
    (dictUpdate cfg m).lookup k = cfg.lookup k := by
  induction m generalizing cfg with
  | nil => rfl
  | cons p rest ih =>
      obtain ⟨k₀, v₀⟩ := p
      simp only [List.map, List.mem_cons] at h
      push_neg at h
      simp only [dictUpdate]
      rw [ih _ h.2, lookup_setKey_ne _ _ _ _ h.1]

theorem lookup_dictUpdate_mem {κ : Type} [DecidableEq κ] [BEq κ] [LawfulBEq κ]
    (cfg : List (κ × α))
    (m : List (κ × α)) (k : κ) (v : α)
    (hm : m.lookup k = some v) (hnd : (m.map Prod.fst).Nodup) :
    (dictUpdate cfg m).lookup k = some v := by
  induction m generalizing cfg with
  | nil => simp [List.lookup] at hm
  | cons p rest ih =>
      obtain ⟨k₀, v₀⟩ := p
      simp only [List.map, List.nodup_cons] at hnd
      by_cases hk : k = k₀
      · subst hk
        simp only [List.lookup, beq_self_eq_true] at hm
        obtain rfl : v₀ = v := by simpa using hm
        simp only [dictUpdate]
        rw [lookup_dictUpdate_not_mem _ _ _ hnd.1, lookup_setKey_self]
      · simp only [List.lookup, beq_eq_false_iff_ne.mpr hk] at hm
        simp only [dictUpdate]
        exact ih _ hm hnd.2

end PromptLab

namespace PromptLab

/-! ## Claim theorems: pricing and settings store -/

/-- C1: for all non-negative integer token counts and every pricing entry,
`ModelPricing.calculate_cost(input_tokens, output_tokens)` returns exactly
`(input_tokens/1000)*input_price + (output_tokens/1000)*output_price`. -/
theorem calculate_cost_formula (p : ModelPricing) (input_tokens output_tokens : ℕ) :
    p.calculate_cost input_tokens output_tokens =
      ((input_tokens : ℚ) / 1000) * p.input_price
        + ((output_tokens : ℚ) / 1000) * p.output_price := rfl

/-- C6: on a fresh `ConfigManager` (as built by `__init__`), `get(key, default)`
returns the default when the backing file is absent, unreadable, or malformed;
the embedded `get` is total on these cases, i.e. the corruption is swallowed
(the source catches `OSError` and `JSONDecodeError`) and no exception reaches
the caller. -/
theorem get_default_on_bad_file (k : String) (d : α) :
    (ConfigManager.get (freshCM (FileContent.absent)) k d).1 = d
      ∧ (ConfigManager.get (freshCM (FileContent.unreadable)) k d).1 = d
      ∧ (ConfigManager.get (freshCM (FileContent.malformed)) k d).1 = d := by
  refine ⟨?_, ?_, ?_⟩ <;> rfl

/-- C7: `set(k, v)` followed by `get(k)` returns `v`; and `update(m)` followed
by `get(k)` returns `m[k]` for every key `k` bound in `m` (stated for `m` with
unique keys, as a Python dict has). -/
theorem set_then_get (s : CMState α) (k : String) (v : α) (d : α)
    (m : List (String × α)) (hm : m.lookup k = some v)
    (hnd : (m.map Prod.fst).Nodup) :
    (ConfigManager.get (ConfigManager.set s k v) k d).1 = v
      ∧ (ConfigManager.get (ConfigManager.update s m) k d).1 = v := by
  constructor
  · simp only [ConfigManager.get, ConfigManager.set, save_config, load_config,
      lookupD]
    rw [lookup_setKey_self]
    rfl
  · simp only [ConfigManager.get, ConfigManager.update, save_config, load_config,
      lookupD]
    rw [lookup_dictUpdate_mem _ _ _ _ hm hnd]
    rfl

/-- Witness for `set_then_get` at concrete inputs. -/
theorem set_then_get_witness :
    ([("a", (1 : ℕ)), ("b", 2)].lookup "a" = some 1)
      ∧ (([("a", (1 : ℕ)), ("b", 2)].map Prod.fst).Nodup)
      ∧ (ConfigManager.get
          (ConfigManager.set (freshCM (FileContent.absent)) "a" (1 : ℕ)) "a" 0).1 = 1
      ∧ (ConfigManager.get
          (ConfigManager.update (freshCM (FileContent.absent))
            [("a", (1 : ℕ)), ("b", 2)]) "a" 0).1 = 1 := by
  have h := set_then_get (freshCM (FileContent.absent)) "a" (1 : ℕ) 0
    [("a", (1 : ℕ)), ("b", 2)] (by decide) (by decide)
  exact ⟨by decide, by decide, h.1, h.2⟩

/-- C10: `set(k, v)` leaves every other key's readable value unchanged, and
`update(m)` leaves every key not bound in `m` unchanged, even though the whole
document is rewritten. -/
theorem set_frames_other_keys (s : CMState α) (k k' : String) (v : α) (d : α)
    (m : List (String × α)) (hk : k' ≠ k) (hm : k' ∉ m.map Prod.fst) :
    (ConfigManager.get (ConfigManager.set s k v) k' d).1
        = (ConfigManager.get s k' d).1
      ∧ (ConfigManager.get (ConfigManager.update s m) k' d).1
        = (ConfigManager.get s k' d).1 := by
  constructor
  · simp only [ConfigManager.get, ConfigManager.set, save_config, load_config,
      lookupD]
    rw [lookup_setKey_ne _ _ _ _ hk]
  · simp only [ConfigManager.get, ConfigManager.update, save_config, load_config,
      lookupD]
    rw [lookup_dictUpdate_not_mem _ _ _ hm]

/-! ### Comparison-call lemmas -/

theorem comparisonResults_eq (gen : String → Except String ModelResponse)
    (names : List String) :
    comparisonResults gen names
      = (successResponses gen names, failureErrors gen names) := by
  induction names with
  | nil => rfl
  | cons m rest ih =>
      simp only [comparisonResults, ih, successResponses, failureErrors,
        List.filterMap_cons]
      cases h : gen m <;> simp [h]

theorem joinSep_mentions (sep : String) (l : List String) (x : String)
    (hx : x ∈ l) : ∃ a b : List Char, (joinSep sep l).data = a ++ x.data ++ b := by
  induction l with
  | nil => cases hx
  | cons y ys ih =>
      cases ys with
      | nil =>
          rcases List.mem_singleton.mp hx with rfl
          exact ⟨[], [], by simp [joinSep]⟩
      | cons z zs =>
          rcases List.mem_cons.mp hx with rfl | hx'
          · exact ⟨[], sep.data ++ (joinSep sep (z :: zs)).data,
              by simp [joinSep, String.data_append]⟩
          · obtain ⟨a, b, hab⟩ := ih hx'
            exact ⟨(y.data ++ sep.data) ++ a, b,
              by simp [joinSep, String.data_append, hab]⟩

theorem allFailedMessage_mentions (errors : List (String × String))
    (m e : String) (hmem : (m, e) ∈ errors) :
    mentions (allFailedMessage errors) m := by
  have hx : (m ++ ": " ++ e) ∈ errors.map (fun p => p.1 ++ ": " ++ p.2) :=
    List.mem_map.mpr ⟨(m, e), hmem, rfl⟩
  obtain ⟨a, b, hab⟩ := joinSep_mentions "; " _ _ hx
  refine ⟨("All models failed to generate responses: ").data ++ a,
    (": " ++ e).data ++ b, ?_⟩
  simp [allFailedMessage, String.data_append, hab, List.append_assoc]

/-- Witness for `set_frames_other_keys` at concrete inputs. -/
theorem set_frames_other_keys_witness :
    ("b" ≠ "a") ∧ ("b" ∉ ([("a", (5 : ℕ))].map Prod.fst))
      ∧ (ConfigManager.get
          (ConfigManager.set (freshCM (FileContent.good [("b", (7 : ℕ))])) "a" 5)
            "b" 0).1
        = (ConfigManager.get (freshCM (FileContent.good [("b", (7 : ℕ))])) "b" 0).1
      ∧ (ConfigManager.get
          (ConfigManager.update (freshCM (FileContent.good [("b", (7 : ℕ))]))
            [("a", (5 : ℕ))]) "b" 0).1
        = (ConfigManager.get (freshCM (FileContent.good [("b", (7 : ℕ))])) "b" 0).1 := by
  have h := set_frames_other_keys (freshCM (FileContent.good [("b", (7 : ℕ))]))
    "a" "b" (5 : ℕ) 0 [("a", (5 : ℕ))] (by decide) (by decide)
  exact ⟨by decide, by decide, h.1, h.2⟩

/-- C2: whenever at least one model's call succeeds,
`generate_comparison_responses` does not raise: it returns exactly the
successful models' responses, while the failed models' errors are recorded
(each separately) in the `errors` side mapping. -/
theorem comparison_partial_success (gen : String → Except String ModelResponse)
    (names : List String) (hok : ∃ m ∈ names, ∃ r, gen m = Except.ok r) :
    generate_comparison_responses gen names
        = Except.ok (successResponses gen names)
      ∧ (∀ m r, (m, r) ∈ successResponses gen names
          ↔ m ∈ names ∧ gen m = Except.ok r)
      ∧ (∀ m e, (m, e) ∈ failureErrors gen names
          ↔ m ∈ names ∧ gen m = Except.error e) := by
  obtain ⟨m₀, hm₀, r₀, hr₀⟩ := hok
  have hmem : (m₀, r₀) ∈ successResponses gen names :=
    List.mem_filterMap.mpr ⟨m₀, hm₀, by simp [hr₀]⟩
  have hne : successResponses gen names ≠ [] := by
    intro h
    rw [h] at hmem
    exact absurd hmem (List.not_mem_nil _)
  refine ⟨?_, ?_, ?_⟩
  · simp only [generate_comparison_responses, comparisonResults_eq]
    rw [if_neg]
    rintro ⟨-, h2⟩
    exact hne h2
  · intro m r
    simp only [successResponses, List.mem_filterMap]
    constructor
    · rintro ⟨a, ha, hfa⟩
      cases h : gen a <;> rw [h] at hfa <;> simp at hfa
      obtain ⟨rfl, rfl⟩ := hfa
      exact ⟨ha, h⟩
    · rintro ⟨hm, hg⟩
      exact ⟨m, hm, by simp [hg]⟩
  · intro m e
    simp only [failureErrors, List.mem_filterMap]
    constructor
    · rintro ⟨a, ha, hfa⟩
      cases h : gen a <;> rw [h] at hfa <;> simp at hfa
      obtain ⟨rfl, rfl⟩ := hfa
      exact ⟨ha, h⟩
    · rintro ⟨hm, hg⟩
      exact ⟨m, hm, by simp [hg]⟩

/-- Witness for `comparison_partial_success`: models ["A", "B"], "A" fails
and "B" succeeds; the result contains only "B" and "A"'s error is recorded. -/
theorem comparison_partial_success_witness :
    (∃ m ∈ ["A", "B"], ∃ r, genAB m = Except.ok r)
      ∧ generate_comparison_responses genAB ["A", "B"]
          = Except.ok [("B", respB)]
      ∧ (("B", respB) ∈ successResponses genAB ["A", "B"])
      ∧ (("A", "boom") ∈ failureErrors genAB ["A", "B"]) := by
  have hok : ∃ m ∈ ["A", "B"], ∃ r, genAB m = Except.ok r :=
    ⟨"B", by decide, respB, by rfl⟩
  have h := comparison_partial_success genAB ["A", "B"] hok
  refine ⟨hok, ?_, ?_, ?_⟩
  · rw [h.1]
    congr 1
  · exact (h.2.1 "B" respB).mpr ⟨by decide, rfl⟩
  · exact (h.2.2 "A" "boom").mpr ⟨by decide, rfl⟩

/-- C3: when every model in a non-empty list fails,
`generate_comparison_responses` raises a single aggregate `RuntimeError`
whose message names every failed model. -/
theorem comparison_all_failed (gen : String → Except String ModelResponse)
    (names : List String) (hnil : names ≠ [])
    (hall : ∀ m ∈ names, ∃ e, gen m = Except.error e) :
    ∃ msg, generate_comparison_responses gen names = Except.error msg
      ∧ ∀ m ∈ names, mentions msg m := by
  have hsucc : successResponses gen names = [] := by
    rw [successResponses, List.filterMap_eq_nil_iff]
    intro m hm
    obtain ⟨e, he⟩ := hall m hm
    simp [he]
  have hfail : failureErrors gen names ≠ [] := by
    obtain ⟨m₀, hm₀⟩ := List.exists_mem_of_ne_nil names hnil
    obtain ⟨e₀, he₀⟩ := hall m₀ hm₀
    have hmem : (m₀, e₀) ∈ failureErrors gen names :=
      List.mem_filterMap.mpr ⟨m₀, hm₀, by simp [he₀]⟩
    intro h
    rw [h] at hmem
    exact absurd hmem (List.not_mem_nil _)
  refine ⟨allFailedMessage (failureErrors gen names), ?_, ?_⟩
  · simp only [generate_comparison_responses, comparisonResults_eq]
    rw [if_pos ⟨hfail, hsucc⟩]
  · intro m hm
    obtain ⟨e, he⟩ := hall m hm
    exact allFailedMessage_mentions _ m e
      (List.mem_filterMap.mpr ⟨m, hm, by simp [he]⟩)

/-- Witness for `comparison_all_failed`: models ["A", "B"], both fail. -/
theorem comparison_all_failed_witness :
    ((["A", "B"] : List String) ≠ [])
      ∧ (∀ m ∈ ["A", "B"], ∃ e, genFail m = Except.error e)
      ∧ ∃ msg, generate_comparison_responses genFail ["A", "B"]
            = Except.error msg
          ∧ ∀ m ∈ ["A", "B"], mentions msg m := by
  have hall : ∀ m ∈ ["A", "B"], ∃ e, genFail m = Except.error e := by
    intro m _
    exact ⟨"boom", rfl⟩
  exact ⟨by decide, hall, comparison_all_failed genFail ["A", "B"] (by decide) hall⟩

/-! ### Chain-machine lemmas -/

theorem chainReachable_no_gap {s : ChainState} (hs : ChainReachable s) :
    ∀ n, 1 ≤ n → n < s.stage → (s.responses.lookup n).isSome = true := by
  induction hs with
  | init =>
      intro n h1 h2
      exact absurd h2 (by simp [initChainState]; omega)
  | step hr hstep ih =>
      cases hstep with
      | start prompt call sdrop h =>
          rename_i t
          cases hc : call prompt with
          | ok r =>
              intro n h1 h2
              simp only [startChain, hc] at h2 ⊢
              obtain rfl : n = 1 := by omega
              rw [lookup_setKey_self]
              rfl
          | error e =>
              simpa only [startChain, hc] using ih
      | cont2 inc call sdrop h =>
          rename_i t
          cases hl : t.responses.lookup (2 - 1) with
          | none => simpa only [continueChain, hl] using ih
          | some prev =>
              cases hc : call (continueInput 2 inc t prev) with
              | ok r =>
                  intro n h1 h2
                  simp only [continueChain, hl, hc] at h2 ⊢
                  norm_num at h2
                  rcases (by omega : n = 1 ∨ n = 2) with rfl | rfl
                  · rw [lookup_setKey_ne 2 1 _ _ (by omega)]
                    rw [show (2:ℕ) - 1 = 1 from rfl] at hl
                    simp [hl]
                  · rw [lookup_setKey_self]
                    rfl
              | error e =>
                  simpa only [continueChain, hl, hc] using ih
      | cont3 inc call sdrop h =>
          rename_i t
          cases hl : t.responses.lookup (3 - 1) with
          | none => simpa only [continueChain, hl] using ih
          | some prev =>
              cases hc : call (continueInput 3 inc t prev) with
              | ok r =>
                  intro n h1 h2
                  simp only [continueChain, hl, hc] at h2 ⊢
                  norm_num at h2
                  have hst : 3 ≤ t.stage := by
                    simp only [stage3Enabled, Bool.and_eq_true,
                      decide_eq_true_eq] at h
                    exact h.1.1
                  rcases (by omega : n = 1 ∨ n = 2) with rfl | rfl
                  · rw [lookup_setKey_ne 3 1 _ _ (by omega)]
                    exact ih 1 (le_refl 1) (by omega)
                  · rw [lookup_setKey_ne 3 2 _ _ (by omega)]
                    rw [show (3:ℕ) - 1 = 2 from rfl] at hl
                    simp [hl]
              | error e =>
                  simpa only [continueChain, hl, hc] using ih
      | reset =>
          intro n h1 h2
          exact absurd h2 (by simp [initChainState]; omega)

theorem chainReachable_stage_two_le {s : ChainState} (hs : ChainReachable s) :
    (s.responses.lookup 1).isSome = true → 2 ≤ s.stage := by
  induction hs with
  | init => simp [initChainState]
  | step hr hstep ih =>
      cases hstep with
      | start prompt call sdrop h =>
          rename_i t
          cases hc : call prompt with
          | ok r =>
              intro _
              simp [startChain, hc]
          | error e =>
              simpa only [startChain, hc] using ih
      | cont2 inc call sdrop h =>
          rename_i t
          cases hl : t.responses.lookup (2 - 1) with
          | none => simpa only [continueChain, hl] using ih
          | some prev =>
              cases hc : call (continueInput 2 inc t prev) with
              | ok r =>
                  intro _
                  simp [continueChain, hl, hc]
              | error e =>
                  simpa only [continueChain, hl, hc] using ih
      | cont3 inc call sdrop h =>
          rename_i t
          cases hl : t.responses.lookup (3 - 1) with
          | none => simpa only [continueChain, hl] using ih
          | some prev =>
              cases hc : call (continueInput 3 inc t prev) with
              | ok r =>
                  intro _
                  simp [continueChain, hl, hc]
              | error e =>
                  simpa only [continueChain, hl, hc] using ih
      | reset => simp [initChainState]

/-- C4: when stage 1 has no stored response, the stage-2 control is disabled
and triggering `_continue_chain(2)` is a no-op (the `KeyError` is caught);
in any reachable state where stage 1 has a stored response and stage 2 has
not run, the stage-2 control is enabled and the stage-2 completion call
receives stage 1's stored output text verbatim as its user-prompt input. -/
theorem chain_stage2_gating (inc : Bool)
    (call : String → Except String ModelResponse) (s : ChainState) :
    (s.responses.lookup 1 = none →
        stage2Enabled s = false ∧ continueChain 2 inc call s = s)
      ∧ (ChainReachable s → ∀ r, s.responses.lookup 1 = some r →
          s.responses.lookup 2 = none →
          stage2Enabled s = true
            ∧ continueInput 2 inc s r = r.content
            ∧ continueChain 2 inc call s =
                (match call r.content with
                  | .ok r2 =>
                      { stage := 3, responses := setKey 2 r2 s.responses,
                        user_prompt := s.user_prompt }
                  | .error _ => s)) := by
  have hinput : ∀ r, continueInput 2 inc s r = r.content := by
    intro r
    simp only [continueInput]
    rw [if_neg]
    rintro ⟨h3, -⟩
    exact absurd h3 (by norm_num)
  constructor
  · intro hl
    constructor
    · simp [stage2Enabled, hl]
    · simp [continueChain, show (2:ℕ) - 1 = 1 from rfl, hl]
  · intro hre r hl h2
    refine ⟨?_, hinput r, ?_⟩
    · have hst := chainReachable_stage_two_le hre (by simp [hl])
      simp [stage2Enabled, hst, hl, h2]
    · simp only [continueChain, show (2:ℕ) - 1 = 1 from rfl, hl, hinput r]
      cases hc : call r.content <;> simp [hc]

/-- Witness for `chain_stage2_gating`: in the initial state the stage-2
action is disabled and a no-op; in the reachable state `chainS1` (stage 1
done) it is enabled and its call input is stage 1's output. -/
theorem chain_stage2_gating_witness :
    (initChainState.responses.lookup 1 = none
        ∧ stage2Enabled initChainState = false
        ∧ continueChain 2 false (fun _ => Except.ok respC) initChainState
            = initChainState)
      ∧ (ChainReachable chainS1
        ∧ chainS1.responses.lookup 1 = some respB
        ∧ chainS1.responses.lookup 2 = none
        ∧ stage2Enabled chainS1 = true
        ∧ continueInput 2 false chainS1 respB = respB.content) := by
  have h0 := chain_stage2_gating false (fun _ => Except.ok respC) initChainState
  have hre : ChainReachable chainS1 :=
    ChainReachable.step ChainReachable.init
      (ChainStep.start "x" (fun _ => Except.ok respB) initChainState (by decide))
  have h1 := (chain_stage2_gating false (fun _ => Except.ok respC) chainS1).2
    hre respB rfl rfl
  exact ⟨⟨rfl, (h0.1 rfl).1, (h0.1 rfl).2⟩, hre, rfl, rfl, h1.1, h1.2.1⟩

/-- C8: if the underlying completion call raises, both `_start_chain` and
`_continue_chain` leave the chain session state (pointer, stored responses,
saved seed prompt) exactly unchanged, so the same action may be retried. -/
theorem chain_error_preserves_state (s : ChainState) (prompt : String)
    (call : String → Except String ModelResponse) :
    (∀ e, call prompt = Except.error e → startChain prompt call s = s)
      ∧ ∀ n inc prev e, s.responses.lookup (n - 1) = some prev →
          call (continueInput n inc s prev) = Except.error e →
          continueChain n inc call s = s := by
  constructor
  · intro e he
    simp [startChain, he]
  · intro n inc prev e hl he
    simp [continueChain, hl, he]

/-- Witness for `chain_error_preserves_state`: a failing call leaves the
concrete state `chainS1` unchanged under both actions. -/
theorem chain_error_preserves_state_witness :
    ((fun _ => Except.error "down" : String → Except String ModelResponse) "y"
        = Except.error "down")
      ∧ startChain "y" (fun _ => Except.error "down") chainS1 = chainS1
      ∧ chainS1.responses.lookup (2 - 1) = some respB
      ∧ continueChain 2 false (fun _ => Except.error "down") chainS1 = chainS1 := by
  have h := chain_error_preserves_state chainS1 "y" (fun _ => Except.error "down")
  exact ⟨rfl, h.1 "down" rfl, rfl, h.2 2 false respB "down" rfl rfl⟩

/-- C5 counterexample: in the reachable state `chainS1`, stage 1 already has
a stored response, yet the start/restart control is enabled (the seed prompt
"y" is non-empty) and pressing it re-runs stage 1 in place, overwriting the
stored response with a different one — an enabled chain action other than
the full reset redoes a completed stage. -/
theorem chain_rerun_counterexample :
    ChainReachable chainS1
      ∧ chainS1.responses.lookup 1 = some respB
      ∧ startEnabled "y" = true
      ∧ (startChain "y" (fun _ => Except.ok respC) chainS1).responses.lookup 1
          = some respC
      ∧ respC ≠ respB := by
  refine ⟨ChainReachable.step ChainReachable.init
      (ChainStep.start "x" (fun _ => Except.ok respB) initChainState (by decide)),
    rfl, by decide, rfl, ?_⟩
  intro h
  exact absurd (congrArg ModelResponse.content h) (by decide)

/-- C5 amended: the *continue* controls never re-run a completed stage in
place (the continue-to-stage-N button is disabled once stage N has a stored
response, N ∈ {2,3}), and the full reset discards all three stored stage
results and returns the pointer to 1; the start/restart control, however, is
enabled whenever the seed prompt is non-empty and re-runs stage 1 in place,
overwriting stage 1's stored response while keeping every other stage's. -/
theorem chain_rerun_amended (s : ChainState) (prompt : String)
    (call : String → Except String ModelResponse) (r : ModelResponse) :
    ((s.responses.lookup 2).isSome = true → stage2Enabled s = false)
      ∧ ((s.responses.lookup 3).isSome = true → stage3Enabled s = false)
      ∧ (call prompt = Except.ok r →
          (startChain prompt call s).responses.lookup 1 = some r
            ∧ ∀ n, n ≠ 1 → (startChain prompt call s).responses.lookup n
                = s.responses.lookup n)
      ∧ initChainState.stage = 1 ∧ initChainState.responses = [] := by
  refine ⟨?_, ?_, ?_, rfl, rfl⟩
  · intro h
    simp [stage2Enabled, h]
  · intro h
    simp [stage3Enabled, h]
  · intro hc
    constructor
    · simp only [startChain, hc]
      rw [lookup_setKey_self]
    · intro n hn
      simp only [startChain, hc]
      exact lookup_setKey_ne 1 n _ _ hn

/-- Witness for `chain_rerun_amended` at the fully completed state
`chainS3`. -/
theorem chain_rerun_amended_witness :
    ((chainS3.responses.lookup 2).isSome = true)
      ∧ stage2Enabled chainS3 = false
      ∧ ((chainS3.responses.lookup 3).isSome = true)
      ∧ stage3Enabled chainS3 = false
      ∧ ((fun _ => Except.ok respC : String → Except String ModelResponse) "y"
          = Except.ok respC)
      ∧ (startChain "y" (fun _ => Except.ok respC) chainS3).responses.lookup 1
          = some respC
      ∧ (startChain "y" (fun _ => Except.ok respC) chainS3).responses.lookup 2
          = chainS3.responses.lookup 2 := by
  have h := chain_rerun_amended chainS3 "y" (fun _ => Except.ok respC) respC
  exact ⟨rfl, h.1 rfl, rfl, h.2.1 rfl, rfl, (h.2.2.1 rfl).1,
    (h.2.2.1 rfl).2 2 (by decide)⟩

/-- C9: in every chain state reachable from the initial state via the gated
actions, there is never a stage `n ≥ 1` strictly below the current stage
pointer without a stored response, hence no stage is ever in the "skipped"
status. -/
theorem chain_never_skipped {s : ChainState} (hs : ChainReachable s) :
    (∀ n, 1 ≤ n → n < s.stage → (s.responses.lookup n).isSome = true)
      ∧ ∀ n, 1 ≤ n → stageStatus s n ≠ "⚠️ Skipped" := by
  refine ⟨chainReachable_no_gap hs, ?_⟩
  intro n h1
  by_cases hr : (s.responses.lookup n).isSome = true
  · simp only [stageStatus, if_pos hr]
    decide
  · have hlt : ¬ n < s.stage := fun hlt => hr (chainReachable_no_gap hs n h1 hlt)
    simp only [stageStatus, if_neg hr]
    by_cases hready : n = s.stage
        ∧ (n = 1 ∨ (s.responses.lookup (n - 1)).isSome = true)
    · simp only [if_pos hready]
      decide
    · simp only [if_neg hready, if_neg hlt]
      decide

/-- Witness for `chain_never_skipped` at the reachable state `chainS1`. -/
theorem chain_never_skipped_witness :
    ChainReachable chainS1 ∧ 1 ≤ 1
      ∧ stageStatus chainS1 1 ≠ "⚠️ Skipped" := by
  have hre : ChainReachable chainS1 :=
    ChainReachable.step ChainReachable.init
      (ChainStep.start "x" (fun _ => Except.ok respB) initChainState (by decide))
  exact ⟨hre, le_refl 1, (chain_never_skipped hre).2 1 (le_refl 1)⟩

end PromptLab
